import Mathlib

/-!
Verification of the img-proxy image caching service (`main.go`) against its
natural-language specification.  The Go functions `downloadImage`,
`handleProxy` (its retry loop and store write), `handleImage`,
`getExtFromContentType`, `randomString` and `cleanupOldFiles` are shallowly
embedded as executable Lean functions.  Network, clock and filesystem effects
are passed in explicitly as oracles; byte payloads are `List UInt8`; the
store is a list of path/bytes/mod-time records.
-/

set_option maxRecDepth 4096

namespace ImgProxy

abbrev Bytes := List UInt8

/-! ### Go string helpers used by the handlers -/

/-- Characters treated as white space by Go's `unicode.IsSpace`, the predicate
behind `strings.TrimSpace` (Latin-1 range plus the Unicode space separators). -/
def goSpaceChars : List Char :=
  [' ', '\t', '\n', '\u000B', '\u000C', '\r', '\u0085', ' ', ' ',
   ' ', ' ', ' ', ' ', ' ', ' ', ' ',
   ' ', ' ', ' ', ' ', ' ', ' ', ' ',
   ' ', '　']

def goIsSpace (c : Char) : Bool := goSpaceChars.contains c

/-- Embedding of Go `strings.TrimSpace`: drop white space from both ends. -/
def goTrimSpace (s : String) : String :=
  ⟨((s.data.dropWhile goIsSpace).reverse.dropWhile goIsSpace).reverse⟩

/-- Embedding of Go `strings.TrimPrefix pre s`: drop `pre` when it leads `s`. -/
def goTrimLead (pre s : String) : String :=
  if pre.data.isPrefixOf s.data then ⟨s.data.drop pre.data.length⟩ else s

/-- Embedding of Go `strings.ToLower` (ASCII as used here). -/
def goToLower (s : String) : String := ⟨s.data.map Char.toLower⟩

/-! ### Decimal rendering, the embedding of `fmt.Sprintf("%d", n)` -/

def natDecimalAux : Nat → Nat → List Char
  | 0, _ => []
  | fuel + 1, n =>
    if n < 10 then [Nat.digitChar n]
    else natDecimalAux fuel (n / 10) ++ [Nat.digitChar (n % 10)]

/-- Decimal digit string of a natural number (how `%d` prints `UnixNano`). -/
def natDecimal (n : Nat) : List Char := natDecimalAux (n + 1) n

/-- Value of a big-endian decimal digit string; left inverse of `natDecimal`. -/
def decimalVal (cs : List Char) : Nat :=
  cs.foldl (fun a c => 10 * a + (c.toNat - 48)) 0

/-! ### Path handling: `path/filepath.Clean`, `Join`, `Ext` (Unix rules) -/

/-- Split a character list on `'/'`, the element decomposition `Clean` works on
(Go `strings.Split(p, "/")` semantics). -/
def splitSlash : List Char → List (List Char)
  | [] => [[]]
  | c :: rest =>
    if c = '/' then [] :: splitSlash rest
    else
      match splitSlash rest with
      | [] => [[c]]
      | cur :: others => (c :: cur) :: others

/-- Core of `filepath.Clean`: process elements left to right with a stack;
empty and `.` elements are dropped, `..` pops a previous element, or is kept
when the path is relative and nothing remains to pop, or dropped at a root. -/
def cleanAux (rooted : Bool) : List (List Char) → List (List Char) → List (List Char)
  | acc, [] => acc.reverse
  | acc, e :: rest =>
    if e = [] ∨ e = ['.'] then cleanAux rooted acc rest
    else if e = ['.', '.'] then
      match acc with
      | [] => if rooted then cleanAux rooted [] rest else cleanAux rooted [e] rest
      | top :: acc' =>
        if top = ['.', '.'] then cleanAux rooted (e :: acc) rest
        else cleanAux rooted acc' rest
    else cleanAux rooted (e :: acc) rest

def joinSlash : List (List Char) → List Char
  | [] => []
  | [e] => e
  | e :: rest => e ++ '/' :: joinSlash rest

/-- Whether a path is rooted (absolute): it starts with the separator. -/
def isRooted : List Char → Bool
  | '/' :: _ => true
  | _ => false

/-- Embedding of Go `filepath.Clean` for Unix paths. -/
def filepathClean (p : String) : String :=
  let rooted := isRooted p.data
  let out := joinSlash (cleanAux rooted [] (splitSlash p.data))
  if out = [] then (if rooted then "/" else ".")
  else (if rooted then ⟨'/' :: out⟩ else ⟨out⟩)

/-- Embedding of Go `filepath.Join a b` for nonempty `a`, `b`: join with the
separator and `Clean` the result. -/
def filepathJoin (a b : String) : String := filepathClean (a ++ "/" ++ b)

/-- Reversed-scan core of `filepath.Ext`: walk from the end of the path until
a `'.'` (extension found) or a `'/'` or the start (no extension). -/
def filepathExtRev : List Char → List Char → List Char
  | _, [] => []
  | acc, c :: rest =>
    if c = '/' then []
    else if c = '.' then '.' :: acc
    else filepathExtRev (c :: acc) rest

/-- Embedding of Go `filepath.Ext`: suffix of the last element from its final
dot, or the empty string when the last element has no dot. -/
def filepathExt (p : String) : String := ⟨filepathExtRev [] p.data.reverse⟩

/-! ### Fetcher: `downloadImage` -/

structure HttpResponse where
  statusCode : Nat
  contentTypeHeader : String
  body : Bytes
deriving DecidableEq

/-- Outcome of one network attempt: a transport-level failure (request
construction, connection, or the 5s deadline expiring) or an HTTP response. -/
inductive FetchOutcome where
  | net
  | resp (r : HttpResponse)

inductive FetchError where
  | transport
  | serverError (status : Nat) (snippet : Bytes)
  | clientError (status : Nat) (snippet : Bytes)
deriving DecidableEq

/-- Media type extraction in `downloadImage`: cut at the first `';'` and trim
white space. -/
def cleanContentType (ct : String) : String :=
  goTrimSpace ⟨ct.data.takeWhile (fun c => c != ';')⟩

/-- Embedding of `downloadImage`: classify the response by status code, and on
success return the body together with the cleaned content type.  The error
snippet models the first 100 body bytes read into the error message. -/
def downloadImage (o : FetchOutcome) : Except FetchError (Bytes × String) :=
  match o with
  | .net => .error .transport
  | .resp r =>
    if 500 ≤ r.statusCode ∨ r.statusCode = 429 then
      .error (.serverError r.statusCode (r.body.take 100))
    else if 400 ≤ r.statusCode then
      .error (.clientError r.statusCode (r.body.take 100))
    else
      .ok (r.body, cleanContentType r.contentTypeHeader)

/-! ### Retry loop of `handleProxy` -/

structure RetryResult where
  result : Except FetchError (Bytes × String)
  attempts : Nat
  sleeps : List Nat

/-- Embedding of the retry loop `for i := 0; i < 3; i++` in `handleProxy`:
attempt `downloadImage`, stop on the first success, and after a failed
attempt `i` (0-indexed) with `i < 2` sleep `i+1` seconds.  `fetch k` is the
network outcome of the k-th attempt; `attempts` counts `downloadImage` calls;
`sleeps` lists the seconds slept, in order, so `sleeps[k]` separates attempts
`k+1` and `k+2` (1-indexed). -/
def fetchWithRetry (fetch : Nat → FetchOutcome) : RetryResult :=
  match downloadImage (fetch 0) with
  | .ok v => ⟨.ok v, 1, []⟩
  | .error _ =>
    match downloadImage (fetch 1) with
    | .ok v => ⟨.ok v, 2, [1]⟩
    | .error _ =>
      match downloadImage (fetch 2) with
      | .ok v => ⟨.ok v, 3, [1, 2]⟩
      | .error e => ⟨.error e, 3, [1, 2]⟩

/-- Seconds slept immediately before the (1-indexed) attempt `j` of a retry
run: the sleep recorded between attempts `j-1` and `j`, 0 when none. -/
def delayBeforeAttempt (r : RetryResult) (j : Nat) : Nat :=
  if j < 2 then 0 else r.sleeps.getD (j - 2) 0

/-! ### Content sniffing and key generation -/

/-- Embedding of `getExtFromContentType`. -/
def getExtFromContentType (ct : String) : String :=
  if ct = "image/jpeg" ∨ ct = "image/jpg" then "jpg"
  else if ct = "image/png" then "png"
  else if ct = "image/webp" then "webp"
  else if ct = "image/gif" then "gif"
  else "png"

/-- Alphabet of `randomString`. -/
def letters : List Char := "abcdefghijklmnopqrstuvwxyz0123456789".data

/-- Embedding of `randomString n`: character `i` is
`letters[time.Now().UnixNano() % len(letters)]`, so it is a pure function of
the nanosecond clock value observed at position `i` (`now i`), not an
independent random draw. -/
def randomString (now : Nat → Nat) (n : Nat) : List Char :=
  (List.range n).map (fun i => letters.getD (now i % letters.length) 'a')

/-- The relevant fields of the global `CONFIG`. -/
structure Config where
  customDomain : String
  prefixPath : String
  storagePath : String

/-- The configuration defaults installed by `init`. -/
def defaultConfig : Config :=
  { customDomain := "https://images.qhaigc.net"
    prefixPath := "img/"
    storagePath := "./storage" }

/-- Embedding of the filename construction in `handleProxy`:
`fmt.Sprintf("%s%d-%s.%s", prefix, time.Now().UnixNano(), randomString(6), ext)`.
`now 0` is the nanosecond clock read for the timestamp field and `now (i+1)`
the read for suffix character `i`. -/
def generateKey (cfg : Config) (now : Nat → Nat) (ext : String) : String :=
  cfg.prefixPath ++ ⟨natDecimal (now 0)⟩ ++ "-" ++
    ⟨randomString (fun i => now (i + 1)) 6⟩ ++ "." ++ ext

/-- The character-list shape of a generated key after the fixed prefix. -/
def keyFile (now : Nat → Nat) (ext : String) : List Char :=
  natDecimal (now 0) ++ '-' :: (randomString (fun i => now (i + 1)) 6 ++ '.' :: ext.data)

/-! ### Store -/

structure StoredFile where
  path : String
  bytes : Bytes
  modTime : Int
deriving DecidableEq

abbrev Store := List StoredFile

/-- Embedding of `os.WriteFile`: create or overwrite the file at `p`. -/
def storeWrite (st : Store) (p : String) (b : Bytes) (t : Int) : Store :=
  ⟨p, b, t⟩ :: st.filter (fun f => f.path != p)

structure FileInfo where
  isDir : Bool
  modTime : Int

/-- Outcome of `os.Stat`: a valid `FileInfo`, a does-not-exist error, or any
other error (permission denied, I/O error, ...) with no `FileInfo`. -/
inductive StatOutcome where
  | ok (info : FileInfo)
  | errNotExist
  | errOther

/-- The `os.Stat` behaviour induced by a pure store: files stat as non-
directory entries with their recorded modification time. -/
def storeStatFn (st : Store) : String → StatOutcome := fun p =>
  match st.find? (fun f => f.path == p) with
  | some f => .ok ⟨false, f.modTime⟩
  | none => .errNotExist

/-- The `os.Open`/read behaviour induced by a pure store. -/
def storeReadFn (st : Store) : String → Option Bytes := fun p =>
  (st.find? (fun f => f.path == p)).map (fun f => f.bytes)

/-! ### Ingest: the core of `handleProxy` -/

inductive IngestError where
  | invalidRequest
  | downloadFailed
  | storageFailed
deriving DecidableEq

/-- The success JSON envelope `{success, url, type, size}`. -/
structure IngestOk where
  url : String
  type : String
  size : Nat
deriving DecidableEq

structure IngestResult where
  response : Except IngestError IngestOk
  key : Option String
  attempts : Nat
  sleeps : List Nat
  store : Store

/-- Embedding of the core of `handleProxy`, from the trimming of the `url`
field onward (method check, API key and JSON decoding are the out-of-scope
front door).  `fetch` is the network oracle, `now` the nanosecond clock
oracle for key generation, `writeFails` models a failing
`os.MkdirAll`/`os.WriteFile`, `writeTime` the modification time the
filesystem stamps on the written file. -/
def handleProxyCore (cfg : Config) (rawURL : String) (fetch : Nat → FetchOutcome)
    (now : Nat → Nat) (writeFails : Bool) (writeTime : Int) (st : Store) :
    IngestResult :=
  let imageURL := goTrimSpace rawURL
  if imageURL = "" then ⟨.error .invalidRequest, none, 0, [], st⟩
  else
    let r := fetchWithRetry fetch
    match r.result with
    | .error _ => ⟨.error .downloadFailed, none, r.attempts, r.sleeps, st⟩
    | .ok (imageData, contentType) =>
      let ext0 := getExtFromContentType contentType
      let ext := if ext0 = "" then "png" else ext0
      let filename := generateKey cfg now ext
      let fullPath := filepathJoin cfg.storagePath filename
      if writeFails then ⟨.error .storageFailed, none, r.attempts, r.sleeps, st⟩
      else
        ⟨.ok ⟨cfg.customDomain ++ "/" ++ filename, contentType, imageData.length⟩,
          some filename, r.attempts, r.sleeps,
          storeWrite st fullPath imageData writeTime⟩

/-! ### Serve: `handleImage` -/

inductive ServeResponse where
  | notFound
  | readFailed
  | ok (contentType : String) (body : Bytes)
  | crash
deriving DecidableEq

/-- The content-type switch of `handleImage` over the lower-cased extension. -/
def extContentType (ext : String) : String :=
  if ext = ".jpg" ∨ ext = ".jpeg" then "image/jpeg"
  else if ext = ".png" then "image/png"
  else if ext = ".webp" then "image/webp"
  else if ext = ".gif" then "image/gif"
  else "image/png"

/-- Embedding of `handleImage`.  The guard
`os.IsNotExist(err) || info.IsDir()` is total only when `err` is nil or a
does-not-exist error; on any other `Stat` error `info` is nil and the Go code
dereferences it, modelled by the distinguished outcome `crash`. -/
def handleImageCore (cfg : Config) (urlPath : String)
    (stat : String → StatOutcome) (read : String → Option Bytes) :
    ServeResponse :=
  let filePath := filepathJoin cfg.storagePath (goTrimLead "/" urlPath)
  match stat filePath with
  | .errNotExist => .notFound
  | .errOther => .crash
  | .ok info =>
    if info.isDir then .notFound
    else
      let contentType := extContentType (goToLower (filepathExt filePath))
      match read filePath with
      | none => .readFailed
      | some data => .ok contentType data

/-! ### Evictor: `cleanupOldFiles` -/

structure WalkEntry where
  path : String
  isDir : Bool
  modTime : Int
  bytes : Bytes
deriving DecidableEq

/-- Embedding of one sweep of `cleanupOldFiles` over the walked entries:
an entry survives when its visit erred (`accessErr`, callback returns nil and
the walk continues), when it is a directory, when its age `now - modTime` is
within the TTL, or when its removal failed (`removeErr`, logged, sweep
continues).  Every other file is removed. -/
def cleanupOldFiles (now ttl : Int) (entries : List WalkEntry)
    (accessErr removeErr : String → Bool) : List WalkEntry :=
  entries.filter (fun e =>
    if accessErr e.path then true
    else if e.isDir then true
    else if now - e.modTime > ttl then removeErr e.path
    else true)

/-! ### Root confinement -/

/-- The path a serve request for `urlPath` is resolved to:
`filepath.Join(CONFIG.StoragePath, strings.TrimPrefix(r.URL.Path, "/"))`. -/
def serveResolvedPath (cfg : Config) (urlPath : String) : String :=
  filepathJoin cfg.storagePath (goTrimLead "/" urlPath)

/-- A path lies within the storage root when it is the cleaned root itself or
extends it below a separator. -/
def withinRoot (root p : String) : Prop :=
  p = filepathClean root ∨
    ∃ rest : List Char, p.data = (filepathClean root).data ++ '/' :: rest

/-! ## Helper lemmas -/

/-- Value of a decimal digit character. -/
theorem digitChar_sub48 : ∀ d, d < 10 → (Nat.digitChar d).toNat - 48 = d := by decide

theorem digitChar_not_special : ∀ d, d < 10 →
    (Nat.digitChar d ≠ '-' ∧ Nat.digitChar d ≠ '.' ∧ Nat.digitChar d ≠ '/') := by decide

theorem natDecimalAux_mem (fuel : Nat) : ∀ n c, c ∈ natDecimalAux fuel n →
    ∃ d, d < 10 ∧ c = Nat.digitChar d := by
  induction fuel with
  | zero => intro n c hc; simp [natDecimalAux] at hc
  | succ fuel ih =>
    intro n c hc
    rw [natDecimalAux] at hc
    by_cases h : n < 10
    · rw [if_pos h] at hc
      simp at hc
      exact ⟨n, h, hc⟩
    · rw [if_neg h] at hc
      rcases List.mem_append.mp hc with h1 | h1
      · exact ih _ _ h1
      · simp at h1
        exact ⟨n % 10, Nat.mod_lt _ (by omega), h1⟩

theorem natDecimalAux_ne_nil (fuel n : Nat) (h : n < fuel) :
    natDecimalAux fuel n ≠ [] := by
  cases fuel with
  | zero => omega
  | succ fuel =>
    rw [natDecimalAux]
    by_cases h10 : n < 10
    · rw [if_pos h10]; simp
    · rw [if_neg h10]; simp

theorem natDecimalAux_val (fuel : Nat) : ∀ n, n < fuel →
    decimalVal (natDecimalAux fuel n) = n := by
  induction fuel with
  | zero => omega
  | succ fuel ih =>
    intro n hn
    rw [natDecimalAux]
    by_cases h : n < 10
    · rw [if_pos h]
      simp [decimalVal, digitChar_sub48 n h]
    · rw [if_neg h]
      have hdiv : n / 10 < fuel := by
        have := Nat.div_lt_self (n := n) (k := 10) (by omega) (by omega)
        omega
      unfold decimalVal
      rw [List.foldl_append]
      have hv := ih (n / 10) hdiv
      unfold decimalVal at hv
      rw [hv]
      simp [digitChar_sub48 (n % 10) (Nat.mod_lt _ (by omega))]
      omega

theorem natDecimal_mem (n : Nat) (c : Char) (hc : c ∈ natDecimal n) :
    ∃ d, d < 10 ∧ c = Nat.digitChar d :=
  natDecimalAux_mem (n + 1) n c hc

theorem natDecimal_ne_nil (n : Nat) : natDecimal n ≠ [] :=
  natDecimalAux_ne_nil (n + 1) n (Nat.lt_succ_self n)

theorem natDecimal_val (n : Nat) : decimalVal (natDecimal n) = n :=
  natDecimalAux_val (n + 1) n (Nat.lt_succ_self n)

theorem natDecimal_inj {m n : Nat} (h : natDecimal m = natDecimal n) : m = n := by
  have := congrArg decimalVal h
  rwa [natDecimal_val, natDecimal_val] at this

theorem natDecimal_not_special (n : Nat) (c : Char) (hc : c ∈ natDecimal n) :
    c ≠ '-' ∧ c ≠ '.' ∧ c ≠ '/' := by
  obtain ⟨d, hd, rfl⟩ := natDecimal_mem n c hc
  exact digitChar_not_special d hd

/-- `takeWhile` consumes exactly up to the first stopper. -/
theorem takeWhile_append_stop (p : Char → Bool) :
    ∀ (xs : List Char) (y : Char) (ys : List Char),
      (∀ c ∈ xs, p c = true) → p y = false →
      (xs ++ y :: ys).takeWhile p = xs := by
  intro xs
  induction xs with
  | nil => intro y ys _ hy; simp [List.takeWhile, hy]
  | cons x xs ih =>
    intro y ys hxs hy
    have hx : p x = true := hxs x (by simp)
    simp only [List.cons_append, List.takeWhile, hx]
    show x :: List.takeWhile p (xs ++ y :: ys) = x :: xs
    rw [ih y ys (fun c hc => hxs c (by simp [hc])) hy]

/-! ### splitSlash and cleanAux lemmas -/

theorem splitSlash_no_slash : ∀ xs : List Char, '/' ∉ xs → splitSlash xs = [xs] := by
  intro xs
  induction xs with
  | nil => intro; rfl
  | cons c rest ih =>
    intro h
    have hc : ¬ c = '/' := fun hc => h (by simp [hc])
    rw [splitSlash, if_neg hc, ih (fun hm => h (by simp [hm]))]

theorem splitSlash_append : ∀ (xs ys : List Char), '/' ∉ xs →
    splitSlash (xs ++ '/' :: ys) = xs :: splitSlash ys := by
  intro xs
  induction xs with
  | nil => intro ys _; simp [splitSlash]
  | cons c rest ih =>
    intro ys h
    have hc : ¬ c = '/' := fun hc => h (by simp [hc])
    rw [List.cons_append, splitSlash, if_neg hc, ih ys (fun hm => h (by simp [hm]))]

/-- Without `..` elements, cleaning just drops empty and `.` elements. -/
theorem cleanAux_no_dotdot (rooted : Bool) :
    ∀ (es : List (List Char)) (acc : List (List Char)),
      (∀ e ∈ es, e ≠ ['.', '.']) →
      cleanAux rooted acc es
        = acc.reverse ++ es.filter (fun e => !(e == [] || e == ['.'])) := by
  intro es
  induction es with
  | nil => intro acc _; simp [cleanAux]
  | cons e rest ih =>
    intro acc h
    have he : e ≠ ['.', '.'] := h e (by simp)
    have hrest : ∀ x ∈ rest, x ≠ ['.', '.'] := fun x hx => h x (by simp [hx])
    rw [cleanAux.eq_def]
    simp only []
    by_cases h1 : e = [] ∨ e = ['.']
    · have hb : (!(e == [] || e == ['.'])) = false := by
        rcases h1 with h1 | h1 <;> simp [h1]
      rw [if_pos h1, ih acc hrest, List.filter_cons, hb]
      simp
    · have hb : (!(e == [] || e == ['.'])) = true := by
        simp only [Bool.not_eq_true', Bool.or_eq_false_iff, beq_eq_false_iff_ne, ne_eq]
        exact ⟨fun hh => h1 (Or.inl hh), fun hh => h1 (Or.inr hh)⟩
      rw [if_neg h1, if_neg he, ih (e :: acc) hrest, List.filter_cons, hb]
      simp [List.append_assoc]

/-! ### filepathExt lemmas -/

theorem filepathExtRev_upto_dot :
    ∀ (ys : List Char) (zs acc : List Char),
      (∀ c ∈ ys, c ≠ '.' ∧ c ≠ '/') →
      filepathExtRev acc (ys ++ '.' :: zs) = '.' :: (ys.reverse ++ acc) := by
  intro ys
  induction ys with
  | nil => intro zs acc _; simp [filepathExtRev]
  | cons c rest ih =>
    intro zs acc h
    have hc := h c (by simp)
    rw [List.cons_append, filepathExtRev, if_neg hc.2, if_neg hc.1,
      ih zs (c :: acc) (fun x hx => h x (by simp [hx]))]
    simp [List.append_assoc]

theorem filepathExt_concat (pre ext : List Char)
    (h : ∀ c ∈ ext, c ≠ '.' ∧ c ≠ '/') :
    filepathExt ⟨pre ++ '.' :: ext⟩ = ⟨'.' :: ext⟩ := by
  show (⟨filepathExtRev [] (pre ++ '.' :: ext).reverse⟩ : String) = _
  have hrev : (pre ++ '.' :: ext).reverse = ext.reverse ++ '.' :: pre.reverse := by
    rw [List.reverse_append]; simp
  rw [hrev, filepathExtRev_upto_dot ext.reverse pre.reverse []
    (fun c hc => h c (List.mem_reverse.mp hc))]
  simp

/-! ### String and key-shape helpers -/

theorem goTrimLead_slash (s : String) : goTrimLead "/" ("/" ++ s) = s := by
  unfold goTrimLead
  rw [String.data_append]
  show (if List.isPrefixOf ['/'] (['/'] ++ s.data) then _ else _) = s
  rw [if_pos (by simp [List.isPrefixOf])]
  show (⟨(['/'] ++ s.data).drop 1⟩ : String) = s
  rfl

theorem generateKey_data (cfg : Config) (now : Nat → Nat) (ext : String) :
    (generateKey cfg now ext).data
      = cfg.prefixPath.data
        ++ (natDecimal (now 0)
          ++ '-' :: (randomString (fun i => now (i + 1)) 6 ++ '.' :: ext.data)) := by
  show cfg.prefixPath.data ++ natDecimal (now 0) ++ ['-']
      ++ randomString (fun i => now (i + 1)) 6 ++ ['.'] ++ ext.data = _
  simp [List.append_assoc]

theorem getExt_cases (ct : String) :
    getExtFromContentType ct = "jpg" ∨ getExtFromContentType ct = "png" ∨
      getExtFromContentType ct = "webp" ∨ getExtFromContentType ct = "gif" := by
  unfold getExtFromContentType
  split
  · exact Or.inl rfl
  · split
    · exact Or.inr (Or.inl rfl)
    · split
      · exact Or.inr (Or.inr (Or.inl rfl))
      · split
        · exact Or.inr (Or.inr (Or.inr rfl))
        · exact Or.inr (Or.inl rfl)

theorem getExt_ne_empty (ct : String) : getExtFromContentType ct ≠ "" := by
  rcases getExt_cases ct with h | h | h | h <;> rw [h] <;> decide

theorem getExt_char_props (ct : String) :
    ∀ c ∈ (getExtFromContentType ct).data, c ≠ '.' ∧ c ≠ '/' := by
  rcases getExt_cases ct with h | h | h | h <;> rw [h] <;> decide

theorem getExt_lower (ct : String) :
    goToLower ⟨'.' :: (getExtFromContentType ct).data⟩
      = ⟨'.' :: (getExtFromContentType ct).data⟩ := by
  rcases getExt_cases ct with h | h | h | h <;> rw [h] <;> decide

theorem letters_getD_prop :
    ∀ k, k < 36 → (letters.getD k 'a' ≠ '/' ∧ letters.getD k 'a' ≠ '.'
      ∧ letters.getD k 'a' ≠ '-') := by decide

theorem randomString_char_props (now : Nat → Nat) (n : Nat) :
    ∀ c ∈ randomString now n, c ≠ '/' ∧ c ≠ '.' ∧ c ≠ '-' := by
  intro c hc
  rcases List.mem_map.mp hc with ⟨i, _, rfl⟩
  exact letters_getD_prop _ (Nat.mod_lt _ (by decide))

theorem generateKey_default_data (now : Nat → Nat) (ext : String) :
    (generateKey defaultConfig now ext).data = "img/".data ++ keyFile now ext :=
  generateKey_data defaultConfig now ext

theorem keyFile_ne_nil (now : Nat → Nat) (ext : String) : keyFile now ext ≠ [] := by
  unfold keyFile
  rcases hd : natDecimal (now 0) with _ | ⟨c, cs⟩
  · exact absurd hd (natDecimal_ne_nil _)
  · simp

theorem keyFile_head_digit (now : Nat → Nat) (ext : String) :
    ∀ c cs, keyFile now ext = c :: cs → c ≠ '.' := by
  intro c cs h
  unfold keyFile at h
  rcases hd : natDecimal (now 0) with _ | ⟨c0, cs0⟩
  · exact absurd hd (natDecimal_ne_nil _)
  · rw [hd, List.cons_append] at h
    have hc0 : c0 ≠ '.' :=
      (natDecimal_not_special _ c0 (by rw [hd]; simp)).2.1
    have : c0 = c := (List.cons.injEq _ _ _ _ ▸ h).1
    rw [← this]
    exact hc0

theorem keyFile_ne_dot (now : Nat → Nat) (ext : String) : keyFile now ext ≠ ['.'] := by
  intro h
  exact keyFile_head_digit now ext '.' [] h rfl

theorem keyFile_ne_dotdot (now : Nat → Nat) (ext : String) :
    keyFile now ext ≠ ['.', '.'] := by
  intro h
  exact keyFile_head_digit now ext '.' ['.'] h rfl

theorem keyFile_no_slash (now : Nat → Nat) (ct : String) :
    '/' ∉ keyFile now (getExtFromContentType ct) := by
  intro h
  unfold keyFile at h
  simp only [List.mem_append, List.mem_cons] at h
  rcases h with h | h | h | h | h
  · exact (natDecimal_not_special _ _ h).2.2 rfl
  · exact absurd h (by decide)
  · exact (randomString_char_props _ _ _ h).1 rfl
  · exact absurd h (by decide)
  · exact (getExt_char_props ct _ h).2 rfl

/-- Joining a traversal-free `img/`-prefixed file name onto the storage root
cleans to the expected path below the root. -/
theorem joinClean_img (file : List Char) (h1 : file ≠ []) (h2 : file ≠ ['.'])
    (h3 : file ≠ ['.', '.']) (h4 : '/' ∉ file) :
    filepathJoin "./storage" ⟨"img/".data ++ file⟩ = ⟨"storage/img/".data ++ file⟩ := by
  have hdata : ("./storage" ++ "/" ++ (⟨"img/".data ++ file⟩ : String)).data
      = ['.'] ++ '/' :: ("storage".data ++ '/' :: ("img".data ++ '/' :: file)) := by
    rw [String.data_append, String.data_append]
    rfl
  have hclean : cleanAux false [] (splitSlash
      (['.'] ++ '/' :: ("storage".data ++ '/' :: ("img".data ++ '/' :: file))))
      = ["storage".data, "img".data, file] := by
    rw [splitSlash_append _ _ (by decide), splitSlash_append _ _ (by decide),
      splitSlash_append _ _ (by decide), splitSlash_no_slash _ h4]
    show cleanAux false ["img".data, "storage".data] [file] = _
    rw [cleanAux.eq_def]
    simp only []
    rw [if_neg (fun h => h.elim h1 h2), if_neg h3]
    rfl
  have hrooted : isRooted
      (['.'] ++ '/' :: ("storage".data ++ '/' :: ("img".data ++ '/' :: file))) = false := rfl
  simp only [filepathJoin, filepathClean]
  rw [hdata, hrooted, hclean]
  have hjoin : joinSlash ["storage".data, "img".data, file]
      = "storage".data ++ '/' :: ("img".data ++ '/' :: file) := rfl
  rw [hjoin]
  rw [if_neg (fun h => List.noConfusion h)]
  rfl

/-! ### Store lookup and serve-after-write helpers -/

theorem storeWrite_find (st : Store) (P : String) (B : Bytes) (t : Int) :
    (storeWrite st P B t).find? (fun f => f.path == P) = some ⟨P, B, t⟩ := by
  unfold storeWrite
  rw [List.find?_cons]
  simp

theorem storeStatFn_write (st : Store) (P : String) (B : Bytes) (t : Int) :
    storeStatFn (storeWrite st P B t) P = .ok ⟨false, t⟩ := by
  unfold storeStatFn
  rw [storeWrite_find]

theorem storeReadFn_write (st : Store) (P : String) (B : Bytes) (t : Int) :
    storeReadFn (storeWrite st P B t) P = some B := by
  unfold storeReadFn
  rw [storeWrite_find]
  rfl

theorem generateKey_eq_mk (now : Nat → Nat) (e : String) :
    generateKey defaultConfig now e = ⟨"img/".data ++ keyFile now e⟩ :=
  String.ext (generateKey_default_data now e)

/-- The path a fresh key is written to, in explicit list form. -/
theorem joinClean_key (now : Nat → Nat) (ct : String) :
    filepathJoin "./storage" (generateKey defaultConfig now (getExtFromContentType ct))
      = ⟨"storage/img/".data ++ keyFile now (getExtFromContentType ct)⟩ := by
  rw [generateKey_eq_mk]
  exact joinClean_img _ (keyFile_ne_nil _ _) (keyFile_ne_dot _ _)
    (keyFile_ne_dotdot _ _) (keyFile_no_slash now ct)

theorem writtenPath_ext (now : Nat → Nat) (ct : String) :
    filepathExt ⟨"storage/img/".data ++ keyFile now (getExtFromContentType ct)⟩
      = ⟨'.' :: (getExtFromContentType ct).data⟩ := by
  have hlist : "storage/img/".data ++ keyFile now (getExtFromContentType ct)
      = ("storage/img/".data ++ (natDecimal (now 0)
          ++ '-' :: randomString (fun i => now (i + 1)) 6))
        ++ '.' :: (getExtFromContentType ct).data := by
    unfold keyFile
    simp [List.append_assoc]
  rw [congrArg String.mk hlist]
  exact filepathExt_concat _ _ (getExt_char_props ct)

/-- Serving a freshly written key returns the written bytes with the media
type the serve handler derives from the key extension. -/
theorem serveStored (now : Nat → Nat) (ct : String) (st : Store) (B : Bytes) (t : Int) :
    handleImageCore defaultConfig
        ("/" ++ generateKey defaultConfig now (getExtFromContentType ct))
        (storeStatFn (storeWrite st
          (filepathJoin "./storage" (generateKey defaultConfig now (getExtFromContentType ct))) B t))
        (storeReadFn (storeWrite st
          (filepathJoin "./storage" (generateKey defaultConfig now (getExtFromContentType ct))) B t))
      = .ok (extContentType ⟨'.' :: (getExtFromContentType ct).data⟩) B := by
  simp only [handleImageCore]
  have hsp : defaultConfig.storagePath = "./storage" := rfl
  rw [hsp, goTrimLead_slash]
  show (match storeStatFn _ (filepathJoin "./storage"
      (generateKey defaultConfig now (getExtFromContentType ct))) with
    | .errNotExist => ServeResponse.notFound
    | .errOther => ServeResponse.crash
    | .ok info => _) = _
  rw [storeStatFn_write]
  simp only [Bool.false_eq_true, if_neg]
  rw [storeReadFn_write, joinClean_key, writtenPath_ext, getExt_lower]
  rfl

/-! ### Fetch, retry and ingest helpers -/

theorem downloadImage_success (s : Nat) (hdr : String) (B : Bytes) (hs : s < 400) :
    downloadImage (.resp ⟨s, hdr, B⟩) = .ok (B, cleanContentType hdr) := by
  show (if 500 ≤ s ∨ s = 429 then _ else if 400 ≤ s then _ else _) = _
  rw [if_neg (by omega), if_neg (by omega)]

theorem fetchWithRetry_all_fail (fetch : Nat → FetchOutcome)
    (hf : ∀ i, i < 3 → ∃ e, downloadImage (fetch i) = .error e) :
    ∃ e, fetchWithRetry fetch = ⟨.error e, 3, [1, 2]⟩ := by
  obtain ⟨e0, h0⟩ := hf 0 (by omega)
  obtain ⟨e1, h1⟩ := hf 1 (by omega)
  obtain ⟨e2, h2⟩ := hf 2 (by omega)
  refine ⟨e2, ?_⟩
  unfold fetchWithRetry
  rw [h0, h1, h2]

theorem handleProxyCore_success (url : String) (fetch : Nat → FetchOutcome)
    (now : Nat → Nat) (t : Int) (st : Store) (s : Nat) (hdr : String) (B : Bytes)
    (h0 : ¬ goTrimSpace url = "") (hf : fetch 0 = .resp ⟨s, hdr, B⟩) (hs : s < 400) :
    handleProxyCore defaultConfig url fetch now false t st
      = ⟨.ok ⟨defaultConfig.customDomain ++ "/"
            ++ generateKey defaultConfig now (getExtFromContentType (cleanContentType hdr)),
          cleanContentType hdr, B.length⟩,
        some (generateKey defaultConfig now (getExtFromContentType (cleanContentType hdr))),
        1, [],
        storeWrite st (filepathJoin "./storage"
          (generateKey defaultConfig now
            (getExtFromContentType (cleanContentType hdr)))) B t⟩ := by
  have hd : downloadImage (fetch 0) = .ok (B, cleanContentType hdr) := by
    rw [hf]
    exact downloadImage_success s hdr B hs
  have hr : fetchWithRetry fetch = ⟨.ok (B, cleanContentType hdr), 1, []⟩ := by
    unfold fetchWithRetry
    rw [hd]
  simp only [handleProxyCore]
  rw [if_neg h0, hr]
  simp only []
  rw [if_neg (getExt_ne_empty (cleanContentType hdr))]
  rfl

/-! ## Claim theorems -/

/-- C1: for every URL whose fetch succeeds with payload bytes `B`, a
successful ingest followed by serving the key in the returned URL yields
exactly the bytes `B`, and the served media type is the one the code derives
from the content type detected at fetch time (through the stored key's
extension). -/
theorem C1_round_trip (url : String) (fetch : Nat → FetchOutcome) (now : Nat → Nat)
    (t : Int) (st : Store) (s : Nat) (hdr : String) (B : Bytes)
    (h0 : ¬ goTrimSpace url = "") (hf : fetch 0 = .resp ⟨s, hdr, B⟩) (hs : s < 400) :
    (handleProxyCore defaultConfig url fetch now false t st).response
        = .ok ⟨defaultConfig.customDomain ++ "/"
            ++ generateKey defaultConfig now (getExtFromContentType (cleanContentType hdr)),
            cleanContentType hdr, B.length⟩
    ∧ handleImageCore defaultConfig
        ("/" ++ generateKey defaultConfig now (getExtFromContentType (cleanContentType hdr)))
        (storeStatFn (handleProxyCore defaultConfig url fetch now false t st).store)
        (storeReadFn (handleProxyCore defaultConfig url fetch now false t st).store)
      = .ok (extContentType ⟨'.' :: (getExtFromContentType (cleanContentType hdr)).data⟩) B := by
  have h := handleProxyCore_success url fetch now t st s hdr B h0 hf hs
  rw [h]
  exact ⟨rfl, serveStored now (cleanContentType hdr) st B t⟩

/-- Witness for C1 at a concrete 200-response fetch of a PNG payload. -/
theorem C1_round_trip_witness :
    (handleProxyCore defaultConfig "http://e/f"
        (fun _ => .resp ⟨200, "image/png", [3]⟩) (fun _ => 5) false 0 []).response
        = .ok ⟨defaultConfig.customDomain ++ "/"
            ++ generateKey defaultConfig (fun _ => 5)
              (getExtFromContentType (cleanContentType "image/png")),
            cleanContentType "image/png", ([3] : Bytes).length⟩
    ∧ handleImageCore defaultConfig
        ("/" ++ generateKey defaultConfig (fun _ => 5)
          (getExtFromContentType (cleanContentType "image/png")))
        (storeStatFn (handleProxyCore defaultConfig "http://e/f"
          (fun _ => .resp ⟨200, "image/png", [3]⟩) (fun _ => 5) false 0 []).store)
        (storeReadFn (handleProxyCore defaultConfig "http://e/f"
          (fun _ => .resp ⟨200, "image/png", [3]⟩) (fun _ => 5) false 0 []).store)
      = .ok (extContentType
          ⟨'.' :: (getExtFromContentType (cleanContentType "image/png")).data⟩) [3] :=
  C1_round_trip "http://e/f" _ (fun _ => 5) 0 [] 200 "image/png" [3]
    (by decide) rfl (by decide)

/-- C2: when every fetch attempt fails, ingest performs exactly 3 attempts,
fails with the download-failed error, and leaves the store unchanged. -/
theorem C2_download_failed (url : String) (fetch : Nat → FetchOutcome)
    (now : Nat → Nat) (wf : Bool) (t : Int) (st : Store)
    (h0 : ¬ goTrimSpace url = "")
    (hf : ∀ i, i < 3 → ∃ e, downloadImage (fetch i) = .error e) :
    handleProxyCore defaultConfig url fetch now wf t st
      = ⟨.error .downloadFailed, none, 3, [1, 2], st⟩ := by
  obtain ⟨e, hr⟩ := fetchWithRetry_all_fail fetch hf
  simp only [handleProxyCore]
  rw [if_neg h0, hr]

/-- Witness for C2 at a remote that always answers HTTP 500. -/
theorem C2_download_failed_witness :
    handleProxyCore defaultConfig "http://e/f" (fun _ => .resp ⟨500, "", []⟩)
        (fun _ => 0) false 0 []
      = ⟨.error .downloadFailed, none, 3, [1, 2], []⟩ :=
  C2_download_failed "http://e/f" _ (fun _ => 0) false 0 [] (by decide)
    (fun _ _ => ⟨.serverError 500 [], rfl⟩)

/-- C3 counterexample: the backoff delay inserted before (1-indexed) attempt 2
is 1 second, not the 2 seconds the claim's indexing demands. -/
theorem C3_backoff_counterexample :
    delayBeforeAttempt (fetchWithRetry (fun _ => .resp ⟨500, "", []⟩)) 2 = 1
    ∧ (1 : Nat) ≠ 2 :=
  ⟨rfl, by decide⟩

/-- C3 amended: in an all-fail run the recorded backoffs are `[1, 2]` seconds;
no delay precedes attempt 1, the delay before attempt `j` (for `2 ≤ j ≤ 3`,
equivalently after failed attempt `j-1`) is `j - 1` seconds, and the delays
are monotonically non-decreasing. -/
theorem C3_backoff (fetch : Nat → FetchOutcome)
    (hf : ∀ i, i < 3 → ∃ e, downloadImage (fetch i) = .error e) :
    (fetchWithRetry fetch).sleeps = [1, 2]
    ∧ delayBeforeAttempt (fetchWithRetry fetch) 1 = 0
    ∧ (∀ j, 2 ≤ j → j ≤ 3 → delayBeforeAttempt (fetchWithRetry fetch) j = j - 1)
    ∧ delayBeforeAttempt (fetchWithRetry fetch) 2
        ≤ delayBeforeAttempt (fetchWithRetry fetch) 3 := by
  obtain ⟨e, hr⟩ := fetchWithRetry_all_fail fetch hf
  rw [hr]
  refine ⟨rfl, rfl, ?_, by show (1 : Nat) ≤ 2; decide⟩
  intro j h2 h3
  interval_cases j
  · rfl
  · rfl

/-- Witness for C3 amended at a remote that always answers HTTP 500. -/
theorem C3_backoff_witness :
    delayBeforeAttempt (fetchWithRetry (fun _ => FetchOutcome.resp ⟨500, "", []⟩)) 3
      = 3 - 1 :=
  (C3_backoff (fun _ => .resp ⟨500, "", []⟩)
    (fun _ _ => ⟨.serverError 500 [], rfl⟩)).2.2.1 3 (by decide) (by decide)

/-- C4: fetch classifies every response by status: status 500+ or 429 is a
server error, other 4xx a client error, 2xx/3xx a success carrying the body
and cleaned content type, an error arises exactly when the status is 400 or
more, and a transport failure is an error as well. -/
theorem C4_classify (s : Nat) (hdr : String) (B : Bytes) :
    (500 ≤ s ∨ s = 429 →
      downloadImage (.resp ⟨s, hdr, B⟩) = .error (.serverError s (B.take 100)))
    ∧ (400 ≤ s ∧ s < 500 ∧ s ≠ 429 →
      downloadImage (.resp ⟨s, hdr, B⟩) = .error (.clientError s (B.take 100)))
    ∧ (200 ≤ s ∧ s < 400 →
      downloadImage (.resp ⟨s, hdr, B⟩) = .ok (B, cleanContentType hdr))
    ∧ ((∃ e, downloadImage (.resp ⟨s, hdr, B⟩) = .error e) ↔ 400 ≤ s)
    ∧ downloadImage .net = .error .transport := by
  refine ⟨?_, ?_, ?_, ?_, rfl⟩
  · intro h
    show (if 500 ≤ s ∨ s = 429 then _ else _) = _
    rw [if_pos h]
  · intro ⟨h1, h2, h3⟩
    show (if 500 ≤ s ∨ s = 429 then _ else if 400 ≤ s then _ else _) = _
    rw [if_neg (by omega), if_pos h1]
  · intro ⟨h1, h2⟩
    exact downloadImage_success s hdr B h2
  · constructor
    · rintro ⟨e, he⟩
      by_contra hlt
      push_neg at hlt
      rw [downloadImage_success s hdr B hlt] at he
      exact Except.noConfusion he
    · intro h400
      by_cases h5 : 500 ≤ s ∨ s = 429
      · refine ⟨.serverError s (B.take 100), ?_⟩
        show (if 500 ≤ s ∨ s = 429 then _ else _) = _
        rw [if_pos h5]
      · refine ⟨.clientError s (B.take 100), ?_⟩
        show (if 500 ≤ s ∨ s = 429 then _ else if 400 ≤ s then _ else _) = _
        rw [if_neg h5, if_pos h400]

/-- Witness for C4 at statuses 500, 404, 200 and at a transport failure. -/
theorem C4_classify_witness :
    downloadImage (.resp ⟨500, "h", [1, 2]⟩)
        = .error (.serverError 500 (([1, 2] : Bytes).take 100))
    ∧ downloadImage (.resp ⟨404, "h", []⟩)
        = .error (.clientError 404 (([] : Bytes).take 100))
    ∧ downloadImage (.resp ⟨200, "image/png", [3]⟩)
        = .ok ([3], cleanContentType "image/png")
    ∧ downloadImage .net = .error .transport :=
  ⟨(C4_classify 500 "h" [1, 2]).1 (Or.inl (by decide)),
   (C4_classify 404 "h" []).2.1 ⟨by decide, by decide, by decide⟩,
   (C4_classify 200 "image/png" [3]).2.2.1 ⟨by decide, by decide⟩,
   (C4_classify 0 "" []).2.2.2.2⟩

/-- C7: an input URL that trims to empty is rejected as an invalid request
with zero fetch attempts and an unchanged store. -/
theorem C7_empty_url (url : String) (fetch : Nat → FetchOutcome) (now : Nat → Nat)
    (wf : Bool) (t : Int) (st : Store) (h : goTrimSpace url = "") :
    handleProxyCore defaultConfig url fetch now wf t st
      = ⟨.error .invalidRequest, none, 0, [], st⟩ := by
  simp only [handleProxyCore]
  rw [if_pos h]

/-- Witness for C7 at a whitespace-only URL. -/
theorem C7_empty_url_witness :
    handleProxyCore defaultConfig "  " (fun _ => FetchOutcome.net) (fun _ => 0)
        false 0 []
      = ⟨.error .invalidRequest, none, 0, [], []⟩ :=
  C7_empty_url "  " _ (fun _ => 0) false 0 [] (by decide)

/-- Everything before the dash of a generated key is the prefix and the
timestamp digits. -/
theorem takeWhile_dash_key (now : Nat → Nat) (e : String) :
    ("img/".data ++ keyFile now e).takeWhile (fun c => c != '-')
      = "img/".data ++ natDecimal (now 0) := by
  unfold keyFile
  have hassoc : "img/".data ++ (natDecimal (now 0)
        ++ '-' :: (randomString (fun i => now (i + 1)) 6 ++ '.' :: e.data))
      = ("img/".data ++ natDecimal (now 0))
        ++ '-' :: (randomString (fun i => now (i + 1)) 6 ++ '.' :: e.data) := by
    simp [List.append_assoc]
  rw [hassoc]
  apply takeWhile_append_stop
  · intro c hc
    rcases List.mem_append.mp hc with hc | hc
    · have : ∀ c ∈ "img/".data, (c != '-') = true := by decide
      exact this c hc
    · exact bne_iff_ne.mpr (natDecimal_not_special _ c hc).1
  · decide

/-- C5 counterexample: two concurrent successful ingests of different URLs
whose key generations observe the same nanosecond tick produce the same key. -/
theorem C5_counterexample :
    (handleProxyCore defaultConfig "http://a/x"
        (fun _ => .resp ⟨200, "image/png", [1]⟩) (fun _ => 12345) false 0 []).response
      = .ok ⟨"https://images.qhaigc.net/img/12345-777777.png", "image/png", 1⟩
    ∧ (handleProxyCore defaultConfig "http://b/y"
        (fun _ => .resp ⟨200, "image/png", [2]⟩) (fun _ => 12345) false 0 []).response
      = .ok ⟨"https://images.qhaigc.net/img/12345-777777.png", "image/png", 1⟩
    ∧ (handleProxyCore defaultConfig "http://a/x"
        (fun _ => .resp ⟨200, "image/png", [1]⟩) (fun _ => 12345) false 0 []).key
      = (handleProxyCore defaultConfig "http://b/y"
        (fun _ => .resp ⟨200, "image/png", [2]⟩) (fun _ => 12345) false 0 []).key :=
  ⟨rfl, rfl, rfl⟩

/-- C5 amended: two successful ingests whose key generations observe distinct
nanosecond timestamps produce distinct keys (the timestamp is embedded in the
key and is recoverable from it). -/
theorem C5_distinct_timestamps (now₁ now₂ : Nat → Nat) (ct₁ ct₂ : String)
    (h : now₁ 0 ≠ now₂ 0) :
    generateKey defaultConfig now₁ (getExtFromContentType ct₁)
      ≠ generateKey defaultConfig now₂ (getExtFromContentType ct₂) := by
  intro heq
  apply h
  have hd := congrArg String.data heq
  rw [generateKey_default_data, generateKey_default_data] at hd
  have hd2 := congrArg (List.takeWhile (fun c => c != '-')) hd
  rw [takeWhile_dash_key, takeWhile_dash_key] at hd2
  exact natDecimal_inj (List.append_cancel_left hd2)

/-- Witness for C5 amended at ticks 1 and 2. -/
theorem C5_distinct_timestamps_witness :
    generateKey defaultConfig (fun _ => 1) (getExtFromContentType "image/png")
      ≠ generateKey defaultConfig (fun _ => 2) (getExtFromContentType "image/png") :=
  C5_distinct_timestamps (fun _ => 1) (fun _ => 2) "image/png" "image/png" (by decide)

/-- C6 counterexample: for the unsupported content type
application/octet-stream the ingest response reports the original content
type, not image/png. -/
theorem C6_counterexample :
    (handleProxyCore defaultConfig "http://e/f"
        (fun _ => .resp ⟨200, "application/octet-stream", [7]⟩)
        (fun _ => 42) false 0 []).response
      = .ok ⟨"https://images.qhaigc.net/img/42-gggggg.png",
          "application/octet-stream", 1⟩
    ∧ "application/octet-stream" ≠ "image/png" :=
  ⟨rfl, by decide⟩

/-- C6 amended: an unsupported content type falls back to extension `png`
(the stored key ends in `.png`); the ingest response reports the original
detected content type, while serving the stored key reports media type
image/png. -/
theorem C6_unknown_type (url : String) (fetch : Nat → FetchOutcome)
    (now : Nat → Nat) (t : Int) (st : Store) (s : Nat) (hdr : String) (B : Bytes)
    (h0 : ¬ goTrimSpace url = "") (hf : fetch 0 = .resp ⟨s, hdr, B⟩) (hs : s < 400)
    (h1 : cleanContentType hdr ≠ "image/jpeg")
    (h2 : cleanContentType hdr ≠ "image/jpg")
    (h3 : cleanContentType hdr ≠ "image/png")
    (h4 : cleanContentType hdr ≠ "image/webp")
    (h5 : cleanContentType hdr ≠ "image/gif") :
    getExtFromContentType (cleanContentType hdr) = "png"
    ∧ (handleProxyCore defaultConfig url fetch now false t st).key
        = some (generateKey defaultConfig now "png")
    ∧ (generateKey defaultConfig now "png").data
        = "img/".data ++ (natDecimal (now 0)
            ++ '-' :: (randomString (fun i => now (i + 1)) 6 ++ ".png".data))
    ∧ (handleProxyCore defaultConfig url fetch now false t st).response
        = .ok ⟨defaultConfig.customDomain ++ "/" ++ generateKey defaultConfig now "png",
            cleanContentType hdr, B.length⟩
    ∧ handleImageCore defaultConfig ("/" ++ generateKey defaultConfig now "png")
        (storeStatFn (handleProxyCore defaultConfig url fetch now false t st).store)
        (storeReadFn (handleProxyCore defaultConfig url fetch now false t st).store)
      = .ok "image/png" B := by
  have hext : getExtFromContentType (cleanContentType hdr) = "png" := by
    unfold getExtFromContentType
    rw [if_neg (fun hh => hh.elim h1 h2), if_neg h3, if_neg h4, if_neg h5]
  have h := handleProxyCore_success url fetch now t st s hdr B h0 hf hs
  rw [hext] at h
  rw [h]
  have hserve := serveStored now (cleanContentType hdr) st B t
  rw [hext] at hserve
  exact ⟨hext, rfl, generateKey_default_data now "png", rfl, hserve⟩

/-- Witness for C6 amended at content type application/octet-stream. -/
theorem C6_unknown_type_witness :
    getExtFromContentType (cleanContentType "application/octet-stream") = "png"
    ∧ (handleProxyCore defaultConfig "http://e/f"
        (fun _ => .resp ⟨200, "application/octet-stream", [7]⟩)
        (fun _ => 42) false 0 []).key = some (generateKey defaultConfig (fun _ => 42) "png")
    ∧ (generateKey defaultConfig (fun _ => 42) "png").data
        = "img/".data ++ (natDecimal 42
            ++ '-' :: (randomString (fun i => (fun _ => (42 : Nat)) (i + 1)) 6 ++ ".png".data))
    ∧ (handleProxyCore defaultConfig "http://e/f"
        (fun _ => .resp ⟨200, "application/octet-stream", [7]⟩)
        (fun _ => 42) false 0 []).response
        = .ok ⟨defaultConfig.customDomain ++ "/" ++ generateKey defaultConfig (fun _ => 42) "png",
            cleanContentType "application/octet-stream", ([7] : Bytes).length⟩
    ∧ handleImageCore defaultConfig ("/" ++ generateKey defaultConfig (fun _ => 42) "png")
        (storeStatFn (handleProxyCore defaultConfig "http://e/f"
          (fun _ => .resp ⟨200, "application/octet-stream", [7]⟩)
          (fun _ => 42) false 0 []).store)
        (storeReadFn (handleProxyCore defaultConfig "http://e/f"
          (fun _ => .resp ⟨200, "application/octet-stream", [7]⟩)
          (fun _ => 42) false 0 []).store)
      = .ok "image/png" [7] :=
  C6_unknown_type "http://e/f" _ (fun _ => 42) 0 [] 200 "application/octet-stream" [7]
    (by decide) rfl (by decide) (by decide) (by decide) (by decide) (by decide) (by decide)

/-- C8: a sweep keeps exactly the entries that are directories, within the
TTL, or whose visit or removal erred; kept entries are the original records
(bytes untouched); and with no per-entry failures the sweep deletes exactly
the files whose age exceeds the TTL.  The membership characterisation holds
for every entry independently, so per-entry failures never abort the sweep. -/
theorem C8_evictor (now ttl : Int) (entries : List WalkEntry)
    (aErr rErr : String → Bool) :
    (∀ e ∈ entries,
      (e ∈ cleanupOldFiles now ttl entries aErr rErr
        ↔ (aErr e.path = true ∨ e.isDir = true ∨ now - e.modTime ≤ ttl
            ∨ rErr e.path = true)))
    ∧ (∀ e ∈ cleanupOldFiles now ttl entries aErr rErr, e ∈ entries)
    ∧ cleanupOldFiles now ttl entries (fun _ => false) (fun _ => false)
        = entries.filter (fun e => e.isDir || decide (now - e.modTime ≤ ttl)) := by
  refine ⟨?_, ?_, ?_⟩
  · intro e he
    unfold cleanupOldFiles
    rw [List.mem_filter]
    constructor
    · rintro ⟨-, hp⟩
      by_cases ha : aErr e.path = true
      · exact Or.inl ha
      · rw [if_neg ha] at hp
        by_cases hd : e.isDir = true
        · exact Or.inr (Or.inl hd)
        · rw [if_neg hd] at hp
          by_cases hexp : now - e.modTime > ttl
          · rw [if_pos hexp] at hp
            exact Or.inr (Or.inr (Or.inr hp))
          · exact Or.inr (Or.inr (Or.inl (by omega)))
    · intro hcase
      refine ⟨he, ?_⟩
      by_cases ha : aErr e.path = true
      · rw [if_pos ha]
      · rw [if_neg ha]
        by_cases hd : e.isDir = true
        · rw [if_pos hd]
        · rw [if_neg hd]
          by_cases hexp : now - e.modTime > ttl
          · rw [if_pos hexp]
            rcases hcase with hc | hc | hc | hc
            · exact absurd hc ha
            · exact absurd hc hd
            · omega
            · exact hc
          · rw [if_neg hexp]
  · intro e he
    exact (List.mem_filter.mp he).1
  · unfold cleanupOldFiles
    apply List.filter_congr
    intro e _
    rw [if_neg (by simp)]
    by_cases hd : e.isDir = true
    · rw [if_pos hd, hd]
      simp
    · simp only [Bool.not_eq_true] at hd
      rw [if_neg (by simp [hd])]
      by_cases hexp : now - e.modTime > ttl
      · have hle : ¬ (now - e.modTime ≤ ttl) := by omega
        rw [if_pos hexp]
        simp [hd, hle]
      · have hle : now - e.modTime ≤ ttl := by omega
        rw [if_neg hexp]
        simp [hd, hle]

/-- Witness for C8: with one file older than the TTL and one newer, exactly
the older one is removed and the newer record survives unchanged. -/
theorem C8_evictor_witness :
    (⟨"storage/img/new.png", false, 90, [2]⟩ : WalkEntry)
        ∈ cleanupOldFiles 100 50
          [⟨"storage/img/old.png", false, 0, [1]⟩, ⟨"storage/img/new.png", false, 90, [2]⟩]
          (fun _ => false) (fun _ => false)
    ∧ cleanupOldFiles 100 50
          [⟨"storage/img/old.png", false, 0, [1]⟩, ⟨"storage/img/new.png", false, 90, [2]⟩]
          (fun _ => false) (fun _ => false)
        = [⟨"storage/img/new.png", false, 90, [2]⟩] := by
  have h := C8_evictor 100 50
    [⟨"storage/img/old.png", false, 0, [1]⟩, ⟨"storage/img/new.png", false, 90, [2]⟩]
    (fun _ => false) (fun _ => false)
  exact ⟨(h.1 _ (by decide)).mpr (Or.inr (Or.inr (Or.inl (by decide)))),
    h.2.2.trans (by decide)⟩

/-- C9 counterexample: a key with `..` segments resolves outside the storage
root, and the handler still stats and serves the resolved file: the key is
honored although it escapes the root. -/
theorem C9_counterexample :
    serveResolvedPath defaultConfig "/img/../../../etc/passwd" = "../etc/passwd"
    ∧ ¬ withinRoot "./storage"
        (serveResolvedPath defaultConfig "/img/../../../etc/passwd")
    ∧ handleImageCore defaultConfig "/img/../../../etc/passwd"
        (fun p => if p = "../etc/passwd" then .ok ⟨false, 0⟩ else .errNotExist)
        (fun p => if p = "../etc/passwd" then some [9, 9] else none)
      = .ok "image/png" [9, 9] := by
  refine ⟨rfl, ?_, rfl⟩
  intro h
  rcases h with h | ⟨rest, h⟩
  · exact absurd h (by decide)
  · have hr : ((filepathClean "./storage").data ++ '/' :: rest).headD ' ' = 's' := rfl
    have hh : (serveResolvedPath defaultConfig "/img/../../../etc/passwd").data.headD ' '
        = ((filepathClean "./storage").data ++ '/' :: rest).headD ' ' :=
      congrArg (fun l => l.headD ' ') h
    rw [hr] at hh
    exact absurd hh (by decide)

/-- C9 amended: a serve key free of `..` path segments always resolves within
the storage root; only `..` segments can escape it. -/
theorem C9_within_root (urlPath : String)
    (h : ∀ e ∈ splitSlash (goTrimLead "/" urlPath).data, e ≠ ['.', '.']) :
    withinRoot "./storage" (serveResolvedPath defaultConfig urlPath) := by
  have hsp : defaultConfig.storagePath = "./storage" := rfl
  have hdata : ("./storage" ++ "/" ++ goTrimLead "/" urlPath).data
      = ['.'] ++ '/' :: ("storage".data ++ '/' :: (goTrimLead "/" urlPath).data) := by
    rw [String.data_append, String.data_append]
    rfl
  have hrooted : isRooted
      (['.'] ++ '/' :: ("storage".data ++ '/' :: (goTrimLead "/" urlPath).data))
      = false := rfl
  rcases hfl : (splitSlash (goTrimLead "/" urlPath).data).filter
      (fun e => !(e == [] || e == ['.'])) with _ | ⟨f, fs⟩
  · have hres : serveResolvedPath defaultConfig urlPath = "storage" := by
      simp only [serveResolvedPath, filepathJoin, filepathClean]
      rw [hsp, hdata, hrooted, splitSlash_append _ _ (by decide)]
      have hstep : cleanAux false [] (['.'] :: splitSlash
          ("storage".data ++ '/' :: (goTrimLead "/" urlPath).data))
          = cleanAux false [] (splitSlash
            ("storage".data ++ '/' :: (goTrimLead "/" urlPath).data)) := rfl
      rw [hstep, splitSlash_append _ _ (by decide)]
      have hstep2 : cleanAux false [] ("storage".data :: splitSlash
          (goTrimLead "/" urlPath).data)
          = cleanAux false ["storage".data] (splitSlash (goTrimLead "/" urlPath).data) := rfl
      rw [hstep2, cleanAux_no_dotdot false _ _ h, hfl]
      rfl
    rw [hres]
    exact Or.inl rfl
  · have hres : serveResolvedPath defaultConfig urlPath
        = ⟨"storage".data ++ '/' :: joinSlash (f :: fs)⟩ := by
      simp only [serveResolvedPath, filepathJoin, filepathClean]
      rw [hsp, hdata, hrooted, splitSlash_append _ _ (by decide)]
      have hstep : cleanAux false [] (['.'] :: splitSlash
          ("storage".data ++ '/' :: (goTrimLead "/" urlPath).data))
          = cleanAux false [] (splitSlash
            ("storage".data ++ '/' :: (goTrimLead "/" urlPath).data)) := rfl
      rw [hstep, splitSlash_append _ _ (by decide)]
      have hstep2 : cleanAux false [] ("storage".data :: splitSlash
          (goTrimLead "/" urlPath).data)
          = cleanAux false ["storage".data] (splitSlash (goTrimLead "/" urlPath).data) := rfl
      rw [hstep2, cleanAux_no_dotdot false _ _ h, hfl]
      have hjoin : joinSlash (["storage".data].reverse ++ f :: fs)
          = "storage".data ++ '/' :: joinSlash (f :: fs) := rfl
      rw [hjoin]
      rw [if_neg (fun hh => List.noConfusion hh)]
      rfl
    rw [hres]
    exact Or.inr ⟨joinSlash (f :: fs), rfl⟩

/-- Witness for C9 amended at a well-formed key. -/
theorem C9_within_root_witness :
    withinRoot "./storage" (serveResolvedPath defaultConfig "/img/a.png") :=
  C9_within_root "/img/a.png" (by decide)

/-- C10: when `os.Stat` fails with an error that is not a does-not-exist
error (for example permission denied), the guard
`os.IsNotExist(err) || info.IsDir()` dereferences the nil `FileInfo`: the
serve handler crashes instead of producing a response. -/
theorem C10_stat_guard_crash :
    handleImageCore defaultConfig "/img/x.png" (fun _ => .errOther) (fun _ => none)
      = .crash := rfl

end ImgProxy
